import Mathlib

/-!
Verification of the screening/scoring pipeline of the small-cap
fundamentals analyzer.

The embedding models, from `src/src/screener.py` and `src/src/analyzer.py`:

* `FundamentalsRecord` dictionaries as a structure of `Option ℚ` fields
  (only the fields consulted by the screener and the claims are kept;
  an absent dictionary key is `none`);
* Python's `dict.get(key, float('inf'))` followed by `<=` as the Boolean
  comparison `leInf`, where `none` plays the role of the `+inf` sentinel
  (`x <= inf` is true for every `x`, including `inf <= inf`;
  `inf <= b` is false for finite `b`);
* the analyzer cache as an association list inside `AnalyzerState`,
  threaded explicitly through every operation;
* the market-data provider as a function `String → Except ε Fundamentals`:
  `Except.error` stands for any provider failure (network error, unknown
  symbol, malformed payload, raised exception), all of which the Python
  code catches in one `except Exception` handler;
* Python's stable `list.sort(key=..., reverse=True)` as Mathlib's
  (stable) insertion sort under the relation `scoreGE`.

Numeric values are modelled as rationals; every concrete value in the
claims is exactly representable.
-/

/-- Model of the fundamentals dictionary built by
`FundamentalsAnalyzer.get_fundamentals` (src/src/analyzer.py), restricted to
the fields the screener consults.  `none` models an absent key. -/
structure Fundamentals where
  market_cap : Option ℚ
  revenue : Option ℚ
  pe_ratio : Option ℚ
  roe : Option ℚ
  debt_to_equity : Option ℚ
  profit_margin : Option ℚ
  revenue_growth : Option ℚ
  sector : Option String
deriving DecidableEq

/-- The fully empty fundamentals dictionary `{}` (every key absent). -/
def Fundamentals.empty : Fundamentals :=
  ⟨none, none, none, none, none, none, none, none⟩

/-- Model of the screening-criteria dictionary consumed by
`SmallCapScreener` (src/src/screener.py).  `none` models an absent key. -/
structure Criteria where
  max_market_cap : Option ℚ
  min_revenue : Option ℚ
  max_pe_ratio : Option ℚ
  min_roe : Option ℚ
  max_debt_equity : Option ℚ
deriving DecidableEq

/-- The empty criteria dictionary `{}`. -/
def Criteria.empty : Criteria :=
  ⟨none, none, none, none, none⟩

/-- Python comparison `x.getD(inf) <= y.getD(inf)` where an absent value
defaults to the `float('inf')` sentinel: everything (including the
sentinel) is `<=` the sentinel, and the sentinel is `<=` no finite value. -/
def leInf : Option ℚ → Option ℚ → Bool
  | _, none => true
  | none, some _ => false
  | some a, some b => decide (a ≤ b)

/-- Candidate dictionary appended by `SmallCapScreener.screen_by_criteria`
(src/src/screener.py lines 79-88). -/
structure Candidate where
  symbol : String
  market_cap : ℚ
  pe_ratio : ℚ
  roe : ℚ
  debt_to_equity : ℚ
  profit_margin : ℚ
  revenue_growth : ℚ
  score : ℚ
deriving DecidableEq

/-- The `data_cache` dictionary of `FundamentalsAnalyzer`, as an
association list (most recent insertion first). -/
structure AnalyzerState where
  data_cache : List (String × Fundamentals)
deriving DecidableEq

/-- `FundamentalsAnalyzer.get_fundamentals` (src/src/analyzer.py lines
11-56): return the cached record if present; otherwise invoke the provider,
cache and return the record on success, and on any failure return the empty
result `{}` (modelled as `none`) leaving the cache untouched.  The third
component records whether the provider was invoked by this call. -/
def get_fundamentals {ε : Type} (provider : String → Except ε Fundamentals)
    (st : AnalyzerState) (symbol : String) :
    Option Fundamentals × AnalyzerState × Bool :=
  match st.data_cache.lookup symbol with
  | some f => (some f, st, false)
  | none =>
    match provider symbol with
    | Except.ok f => (some f, ⟨(symbol, f) :: st.data_cache⟩, true)
    | Except.error _ => (none, st, true)

/-- `FundamentalsAnalyzer._calculate_growth_rate` (src/src/analyzer.py lines
186-196) applied to a most-recent-first revenue series: with at least two
periods and a nonzero prior period, year-over-year growth in percent;
otherwise `0`. -/
def calculate_growth_rate (series : List ℚ) : ℚ :=
  match series with
  | current :: previous :: _ =>
    if previous ≠ 0 then ((current - previous) / |previous|) * 100 else 0
  | _ => 0

/-- Python's builtin `min` on two rationals. -/
def rmin (a b : ℚ) : ℚ := if a ≤ b then a else b

/-- Python's builtin `max` on two rationals. -/
def rmax (a b : ℚ) : ℚ := if a ≤ b then b else a

/-- P/E contribution of `SmallCapScreener._calculate_score`
(src/src/screener.py lines 113-118).  The argument is the record's
`pe_ratio` entry; `none` models the absent key, whose `float('inf')`
default fails both the `5 <= pe <= 20` and the `pe < 5` tests. -/
def pe_term : Option ℚ → ℚ
  | none => 0
  | some p => if 5 ≤ p ∧ p ≤ 20 then (20 - p) * 2 else if p < 5 then 10 else 0

/-- `SmallCapScreener._calculate_score` (src/src/screener.py lines
105-134). -/
def calculate_score (f : Fundamentals) (_criteria : Criteria) : ℚ :=
  let roe := f.roe.getD 0
  let profit_margin := f.profit_margin.getD 0
  let revenue_growth := f.revenue_growth.getD 0
  let debt_to_equity := f.debt_to_equity.getD 0
  let score : ℚ :=
    rmin (roe * 100) 50
    + pe_term f.pe_ratio
    + rmin (profit_margin * 200) 30
    + (if revenue_growth > 0 then rmin revenue_growth 20 else 0)
    - (if debt_to_equity > 1 then (debt_to_equity - 1) * 10 else 0)
  rmax score 0

/-- `SmallCapScreener._meets_criteria` (src/src/screener.py lines 94-103):
the conjunction of the five threshold checks, with the source's per-side
defaults (`inf` for `market_cap`/`pe_ratio`/`debt_to_equity` and the max
bounds, `0` for `revenue`/`roe` and the min bounds). -/
def meets_criteria (f : Fundamentals) (c : Criteria) : Bool :=
  leInf f.market_cap c.max_market_cap &&
  decide (c.min_revenue.getD 0 ≤ f.revenue.getD 0) &&
  leInf f.pe_ratio c.max_pe_ratio &&
  decide (c.min_roe.getD 0 ≤ f.roe.getD 0) &&
  leInf f.debt_to_equity c.max_debt_equity

/-- Candidate dictionary built for a surviving symbol
(src/src/screener.py lines 79-88): record fields defaulted to `0`, plus the
computed score. -/
def mkCandidate (sym : String) (f : Fundamentals) (c : Criteria) : Candidate :=
  { symbol := sym
    market_cap := f.market_cap.getD 0
    pe_ratio := f.pe_ratio.getD 0
    roe := f.roe.getD 0
    debt_to_equity := f.debt_to_equity.getD 0
    profit_margin := f.profit_margin.getD 0
    revenue_growth := f.revenue_growth.getD 0
    score := calculate_score f c }

/-- The hard-coded sector universe of
`SmallCapScreener._get_sample_symbols_by_sector` (src/src/screener.py). -/
def sector_samples : List (String × List String) :=
  [("Healthcare", ["JNJ", "PFE", "UNH", "ABBV", "TMO", "DHR", "BMY", "AMGN", "GILD", "VRTX"]),
   ("Technology", ["AAPL", "MSFT", "GOOGL", "AMZN", "TSLA", "META", "NVDA", "NFLX", "CRM", "ORCL"]),
   ("Consumer Discretionary", ["AMZN", "TSLA", "HD", "NKE", "MCD", "LOW", "TJX", "SBUX", "TGT", "F"]),
   ("Financial Services", ["BRK-B", "JPM", "BAC", "WFC", "GS", "MS", "C", "AXP", "USB", "PNC"]),
   ("Industrial", ["BA", "UNP", "HON", "UPS", "RTX", "LMT", "CAT", "DE", "MMM", "GE"]),
   ("Energy", ["XOM", "CVX", "COP", "EOG", "SLB", "PSX", "VLO", "MPC", "OXY", "BKR"]),
   ("Materials", ["LIN", "APD", "ECL", "SHW", "FCX", "NEM", "DOW", "DD", "PPG", "IFF"]),
   ("Consumer Staples", ["PG", "KO", "PEP", "WMT", "COST", "CL", "KMB", "GIS", "K", "HSY"]),
   ("Utilities", ["NEE", "DUK", "SO", "D", "AEP", "EXC", "XEL", "SRE", "PEG", "ED"]),
   ("Communication Services", ["GOOGL", "META", "NFLX", "DIS", "CMCSA", "VZ", "T", "CHTR", "TMUS", "ATVI"])]

/-- Lookup into the sector universe (missing sector yields `[]`). -/
def get_sample_symbols_by_sector (sector : String) : List String :=
  (sector_samples.lookup sector).getD []

/-- The effective market-cap limit `max_market_cap or self.max_market_cap`
of `SmallCapScreener.screen_sector` (src/src/screener.py line 42): Python's
`or` falls back to the instance default when the parameter is `None` or —
being falsy — exactly `0`. -/
def effective_limit (mmc : Option ℚ) (instMax : ℚ) : ℚ :=
  match mmc with
  | none => instMax
  | some x => if x = 0 then instMax else x

/-- Loop body of `SmallCapScreener.screen_sector` (src/src/screener.py
lines 47-54): keep a symbol when its fetch succeeds, its market cap (with
`inf` default) is within the limit, and its sector matches
case-insensitively. -/
def screenSectorLoop {ε : Type} (provider : String → Except ε Fundamentals)
    (limit : ℚ) (sector : String) :
    List String → AnalyzerState → List String × AnalyzerState
  | [], st => ([], st)
  | sym :: rest, st =>
    let r := get_fundamentals provider st sym
    let keep : Bool :=
      match r.1 with
      | some f =>
        leInf f.market_cap (some limit) &&
        ((f.sector.getD "").toLower == sector.toLower)
      | none => false
    let rec_rest := screenSectorLoop provider limit sector rest r.2.1
    (if keep then sym :: rec_rest.1 else rec_rest.1, rec_rest.2)

/-- `SmallCapScreener.screen_sector` (src/src/screener.py lines 31-56).
`instMax` is the instance field `self.max_market_cap`. -/
def screen_sector {ε : Type} (provider : String → Except ε Fundamentals)
    (instMax : ℚ) (st : AnalyzerState) (sector : String) (mmc : Option ℚ) :
    List String × AnalyzerState :=
  screenSectorLoop provider (effective_limit mmc instMax) sector
    (get_sample_symbols_by_sector sector) st

/-- Candidate-building loop of `SmallCapScreener.screen_by_criteria`
(src/src/screener.py lines 72-88): skip failed fetches, keep records that
meet every criterion. -/
def screenCriteriaLoop {ε : Type} (provider : String → Except ε Fundamentals)
    (criteria : Criteria) :
    List String → AnalyzerState → List Candidate × AnalyzerState
  | [], st => ([], st)
  | sym :: rest, st =>
    let r := get_fundamentals provider st sym
    let rec_rest := screenCriteriaLoop provider criteria rest r.2.1
    match r.1 with
    | none => rec_rest
    | some f =>
      if meets_criteria f criteria
      then (mkCandidate sym f criteria :: rec_rest.1, rec_rest.2)
      else rec_rest

/-- Candidates of `screen_by_criteria` in encounter order, before the final
sort (src/src/screener.py lines 69-88). -/
def screen_candidates {ε : Type} (provider : String → Except ε Fundamentals)
    (instMax : ℚ) (st : AnalyzerState) (sector : String) (criteria : Criteria) :
    List Candidate × AnalyzerState :=
  let sectorStep := screen_sector provider instMax st sector criteria.max_market_cap
  screenCriteriaLoop provider criteria sectorStep.1 sectorStep.2

/-- Ordering used by `candidates.sort(key=lambda x: x.score, reverse=True)`:
`a` may precede `b` when `a.score >= b.score`. -/
def scoreGE (a b : Candidate) : Prop := b.score ≤ a.score

instance : DecidableRel scoreGE :=
  fun a b => decidable_of_iff (b.score ≤ a.score) Iff.rfl

instance : IsTotal Candidate scoreGE :=
  ⟨fun a b => le_total b.score a.score⟩

instance : IsTrans Candidate scoreGE :=
  ⟨fun _ _ _ hab hbc => le_trans hbc hab⟩

/-- `SmallCapScreener.screen_by_criteria` (src/src/screener.py lines
58-92): build candidates, then sort by score descending with a stable sort
(Python's `list.sort` is stable; insertion sort under `scoreGE` is its
model). -/
def screen_by_criteria {ε : Type} (provider : String → Except ε Fundamentals)
    (instMax : ℚ) (st : AnalyzerState) (sector : String) (criteria : Criteria) :
    List Candidate × AnalyzerState :=
  let cands := screen_candidates provider instMax st sector criteria
  (List.insertionSort scoreGE cands.1, cands.2)

/-- Screening step as the claim reads it when `max_market_cap` is absent:
the same sector loop but with NO market-cap comparison at all (keep a
symbol whenever its fetch succeeds and its sector matches).  This follows
the claim's words — "no market-cap upper bound is applied anywhere in the
pipeline" — and exists to be compared against the source-derived
`screenSectorLoop`. -/
def screenSectorLoopNoCap {ε : Type} (provider : String → Except ε Fundamentals)
    (sector : String) :
    List String → AnalyzerState → List String × AnalyzerState
  | [], st => ([], st)
  | sym :: rest, st =>
    let r := get_fundamentals provider st sym
    let keep : Bool :=
      match r.1 with
      | some f => (f.sector.getD "").toLower == sector.toLower
      | none => false
    let rec_rest := screenSectorLoopNoCap provider sector rest r.2.1
    (if keep then sym :: rec_rest.1 else rec_rest.1, rec_rest.2)

/-- The claim's reading of the pipeline for a criteria set without
`max_market_cap`: universe step without any market-cap bound, then the
criteria filter and the sort exactly as in the source. -/
def screen_by_criteria_noCap {ε : Type} (provider : String → Except ε Fundamentals)
    (st : AnalyzerState) (sector : String) (criteria : Criteria) :
    List Candidate × AnalyzerState :=
  let sectorStep :=
    screenSectorLoopNoCap provider sector (get_sample_symbols_by_sector sector) st
  let cands := screenCriteriaLoop provider criteria sectorStep.1 sectorStep.2
  (List.insertionSort scoreGE cands.1, cands.2)

/-- Concrete fundamentals record used by the C1 verification input. -/
def recC1 : Fundamentals :=
  { market_cap := some 1000000000, revenue := some 50000000,
    pe_ratio := some 10, roe := some (15/100), debt_to_equity := some (1/2),
    profit_margin := some (1/10), revenue_growth := some 5,
    sector := some "Healthcare" }

/-- Concrete provider used by the C1 verification input: one known
small-cap symbol, every other symbol fails. -/
def provC1 : String → Except Unit Fundamentals :=
  fun s => if s = "JNJ" then Except.ok recC1 else Except.error ()

/-- Concrete criteria used by the C1 verification input.  Every bound
equals the corresponding field of `recC1` exactly, so the concrete run
also exercises the inclusive (boundary-equal) comparisons. -/
def critC1 : Criteria :=
  { max_market_cap := some 1000000000, min_revenue := some 50000000,
    max_pe_ratio := some 10, min_roe := some (15/100),
    max_debt_equity := some (1/2) }

/-- Record for the C5 verification input: sector matches but the market
cap (3e9) exceeds the screener's instance default (2e9). -/
def recC5 : Fundamentals :=
  { Fundamentals.empty with
      market_cap := some 3000000000, sector := some "Healthcare" }

/-- Provider for the C5 verification input. -/
def provC5 : String → Except Unit Fundamentals :=
  fun s => if s = "JNJ" then Except.ok recC5 else Except.error ()

/-- Criteria for the C6 verification input: a finite `max_pe_ratio` only. -/
def critC6 : Criteria :=
  { Criteria.empty with max_pe_ratio := some 15 }

/-- Record for the C7 verification input. -/
def recC7 : Fundamentals :=
  { Fundamentals.empty with
      market_cap := some 500000000, pe_ratio := some 9,
      sector := some "Technology" }

/-- Provider for the C7 verification input: one fetchable symbol, every
other symbol raises. -/
def provC7 : String → Except String Fundamentals :=
  fun s => if s = "AAA" then Except.ok recC7 else Except.error "network error"

/-- Provider for the C8 verification input: every fetch raises. -/
def provC8 : String → Except String Fundamentals :=
  fun _ => Except.error "HTTP 404: symbol not found"

/-- Record of the worked scoring example in the spec:
`{roe: 0.20, pe_ratio: 12, profit_margin: 0.15, revenue_growth: 15,
debt_to_equity: 0.3}`. -/
def recC4 : Fundamentals :=
  { Fundamentals.empty with
      roe := some (20/100), pe_ratio := some 12,
      profit_margin := some (15/100), revenue_growth := some 15,
      debt_to_equity := some (3/10) }

theorem rmin_le_right (a b : ℚ) : rmin a b ≤ b := by
  unfold rmin; split
  · assumption
  · exact le_refl b

theorem le_rmax_right (a b : ℚ) : b ≤ rmax a b := by
  unfold rmax; split
  · exact le_refl b
  · exact le_of_not_le (by assumption)

theorem rmax_le {a b c : ℚ} (h1 : a ≤ c) (h2 : b ≤ c) : rmax a b ≤ c := by
  unfold rmax; split
  · exact h2
  · exact h1

theorem pe_term_le_30 (pe : Option ℚ) : pe_term pe ≤ 30 := by
  cases pe with
  | none => simp [pe_term]
  | some p =>
    simp only [pe_term]
    split
    · rename_i h; linarith [h.1]
    · split <;> norm_num

theorem pe_term_nonneg (pe : Option ℚ) : 0 ≤ pe_term pe := by
  cases pe with
  | none => simp [pe_term]
  | some p =>
    simp only [pe_term]
    split
    · rename_i h; linarith [h.2]
    · split <;> norm_num

theorem leInf_none_right (x : Option ℚ) : leInf x none = true := by
  cases x <;> rfl

/-- C3: the P/E term of the scoring rule contributes `(20 - pe) * 2` for
`5 <= pe <= 20` (so exactly `30` at `pe = 5` and `0` at `pe = 20`), a flat
`10` for `pe < 5` (in particular at `4.999`), and `0` for `pe > 20` (in
particular at `21`) or for an absent `pe_ratio` (infinite sentinel). -/
theorem pe_term_spec :
    (∀ p : ℚ, 5 ≤ p → p ≤ 20 → pe_term (some p) = (20 - p) * 2)
    ∧ pe_term (some 5) = 30
    ∧ pe_term (some 20) = 0
    ∧ (∀ p : ℚ, p < 5 → pe_term (some p) = 10)
    ∧ pe_term (some (4999/1000)) = 10
    ∧ (∀ p : ℚ, 20 < p → pe_term (some p) = 0)
    ∧ pe_term (some 21) = 0
    ∧ pe_term none = 0 := by
  refine ⟨?_, by norm_num [pe_term], by norm_num [pe_term], ?_, by norm_num [pe_term],
    ?_, by norm_num [pe_term], rfl⟩
  · intro p h1 h2
    simp [pe_term, h1, h2]
  · intro p h
    have h5 : ¬ (5 ≤ p ∧ p ≤ 20) := fun hc => absurd h (not_lt.mpr hc.1)
    simp [pe_term, h5, h]
  · intro p h
    have h5 : ¬ (5 ≤ p ∧ p ≤ 20) := fun hc => absurd h (not_lt.mpr hc.2)
    have h6 : ¬ p < 5 := by linarith
    simp [pe_term, h5, h6]

/-- Closed instance of the C3 theorem: a midrange P/E of 7 contributes
`(20 - 7) * 2`. -/
theorem pe_term_spec_witness : pe_term (some 7) = (20 - 7) * 2 :=
  pe_term_spec.1 7 (by norm_num) (by norm_num)

/-- C4: the scoring function returns exactly `81` on the worked example
record (terms 20 + 16 + 30 + 15, penalty 0), and exactly `0` on the empty
fundamentals record with the empty criteria set. -/
theorem calculate_score_examples :
    calculate_score recC4 Criteria.empty = 81
    ∧ calculate_score Fundamentals.empty Criteria.empty = 0 := by
  constructor
  · norm_num [calculate_score, pe_term, rmin, rmax, recC4, Fundamentals.empty]
  · norm_num [calculate_score, pe_term, rmin, rmax, Fundamentals.empty]

/-- C10: the composite score always lies in the closed interval
`[0, 130]`: it is floored at `0`, and is at most the sum of the term caps
`50 + 30 + 30 + 20` with the debt penalty only subtracting. -/
theorem calculate_score_bounds (f : Fundamentals) (c : Criteria) :
    0 ≤ calculate_score f c ∧ calculate_score f c ≤ 130 := by
  unfold calculate_score
  constructor
  · exact le_rmax_right _ 0
  · apply rmax_le _ (by norm_num)
    have h1 := rmin_le_right (f.roe.getD 0 * 100) 50
    have h2 := pe_term_le_30 f.pe_ratio
    have h3 := rmin_le_right (f.profit_margin.getD 0 * 200) 30
    have h4 : (if f.revenue_growth.getD 0 > 0
        then rmin (f.revenue_growth.getD 0) 20 else 0) ≤ 20 := by
      split
      · exact rmin_le_right _ 20
      · norm_num
    have h5 : 0 ≤ (if f.debt_to_equity.getD 0 > 1
        then (f.debt_to_equity.getD 0 - 1) * 10 else 0) := by
      split
      · rename_i h; linarith
      · exact le_refl 0
    linarith

/-- C9: the revenue-growth calculation returns
`((current - previous) / |previous|) * 100` over the two most recent
periods of a most-recent-first series, and `0` when the series has fewer
than two periods or the prior period is exactly `0`; in particular
`[110, 100]` yields `10` and `[100, 0]` yields `0`. -/
theorem calculate_growth_rate_spec :
    (∀ (current previous : ℚ) (rest : List ℚ), previous ≠ 0 →
        calculate_growth_rate (current :: previous :: rest)
          = ((current - previous) / |previous|) * 100)
    ∧ (∀ (current : ℚ) (rest : List ℚ),
        calculate_growth_rate (current :: 0 :: rest) = 0)
    ∧ calculate_growth_rate [] = 0
    ∧ (∀ x : ℚ, calculate_growth_rate [x] = 0)
    ∧ calculate_growth_rate [110, 100] = 10
    ∧ calculate_growth_rate [100, 0] = 0 := by
  refine ⟨?_, ?_, rfl, fun x => rfl, by norm_num [calculate_growth_rate], ?_⟩
  · intro current previous rest h
    simp [calculate_growth_rate, h]
  · intro current rest
    simp [calculate_growth_rate]
  · simp [calculate_growth_rate]

/-- Closed instance of the C9 theorem: a three-period series with a
nonzero prior period. -/
theorem calculate_growth_rate_spec_witness :
    calculate_growth_rate [110, 100, 90] = ((110 - (100:ℚ)) / |(100:ℚ)|) * 100 :=
  calculate_growth_rate_spec.1 110 100 [90] (by norm_num)

/-- C6: in the criteria check, absent record fields default toward
exclusion: an absent `market_cap`, `pe_ratio` or `debt_to_equity`
(defaulting to the infinite sentinel) fails any present, finite max bound,
and an absent `revenue` or `roe` (defaulting to `0`) fails any present,
positive min bound; in particular `meets_criteria` returns `false`
whenever the record is missing `pe_ratio` and the criteria set contains
any finite `max_pe_ratio`. -/
theorem meets_criteria_missing_fields (f : Fundamentals) (c : Criteria) :
    (∀ q : ℚ, f.market_cap = none → c.max_market_cap = some q →
        meets_criteria f c = false)
    ∧ (∀ q : ℚ, f.pe_ratio = none → c.max_pe_ratio = some q →
        meets_criteria f c = false)
    ∧ (∀ q : ℚ, f.debt_to_equity = none → c.max_debt_equity = some q →
        meets_criteria f c = false)
    ∧ (∀ q : ℚ, f.revenue = none → c.min_revenue = some q → 0 < q →
        meets_criteria f c = false)
    ∧ (∀ q : ℚ, f.roe = none → c.min_roe = some q → 0 < q →
        meets_criteria f c = false) := by
  refine ⟨?_, ?_, ?_, ?_, ?_⟩
  · intro q h1 h2
    simp [meets_criteria, h1, h2, leInf]
  · intro q h1 h2
    simp [meets_criteria, h1, h2, leInf]
  · intro q h1 h2
    simp [meets_criteria, h1, h2, leInf]
  · intro q h1 h2 h3
    simp [meets_criteria, h1, h2, not_le.mpr h3]
  · intro q h1 h2 h3
    simp [meets_criteria, h1, h2, not_le.mpr h3]

/-- Closed instance of the C6 theorem: the empty record fails a criteria
set whose only bound is `max_pe_ratio = 15`. -/
theorem meets_criteria_missing_fields_witness :
    meets_criteria Fundamentals.empty critC6 = false :=
  (meets_criteria_missing_fields Fundamentals.empty critC6).2.1 15 rfl rfl

/-- C7: caching behaviour of `get_fundamentals`: (a) after a successful
call, a repeat call for the same symbol returns an equal record, leaves
the state unchanged and does not invoke the provider; (b) an existing
cache entry is never mutated by any call (first successful fetch wins,
write-once); (c) a call that hits the cache writes nothing; (d) a failed
fetch writes nothing to the cache and a later identical call again
reaches the provider. -/
theorem get_fundamentals_cache {ε : Type} (provider : String → Except ε Fundamentals)
    (st : AnalyzerState) (sym : String) :
    (∀ f, (get_fundamentals provider st sym).1 = some f →
        get_fundamentals provider (get_fundamentals provider st sym).2.1 sym
          = (some f, (get_fundamentals provider st sym).2.1, false))
    ∧ (∀ s v, st.data_cache.lookup s = some v →
        ((get_fundamentals provider st sym).2.1).data_cache.lookup s = some v)
    ∧ (∀ f, st.data_cache.lookup sym = some f →
        (get_fundamentals provider st sym).2.1 = st)
    ∧ (∀ e, provider sym = Except.error e → st.data_cache.lookup sym = none →
        get_fundamentals provider st sym = (none, st, true)
          ∧ (get_fundamentals provider st sym).2.2 = true) := by
  cases h1 : st.data_cache.lookup sym with
  | some f0 =>
    refine ⟨?_, ?_, ?_, ?_⟩
    · intro f hf
      simp only [get_fundamentals, h1] at hf ⊢
      simp_all
    · intro s v hv
      simp only [get_fundamentals, h1]
      exact hv
    · intro f _
      simp only [get_fundamentals, h1]
    · intro e _ h2
      simp [h1] at h2
  | none =>
    cases h2 : provider sym with
    | ok f0 =>
      refine ⟨?_, ?_, ?_, ?_⟩
      · intro f hf
        simp only [get_fundamentals, h1, h2] at hf ⊢
        cases hf
        simp [List.lookup]
      · intro s v hv
        simp only [get_fundamentals, h1, h2]
        have hs : s ≠ sym := by
          intro he
          rw [he, h1] at hv
          cases hv
        simp only [List.lookup, beq_eq_false_iff_ne.mpr hs]
        exact hv
      · intro f hf
        simp [h1] at hf
      · intro e he
        simp [h2] at he
    | error e0 =>
      refine ⟨?_, ?_, ?_, ?_⟩
      · intro f hf
        simp only [get_fundamentals, h1, h2] at hf
        cases hf
      · intro s v hv
        simp only [get_fundamentals, h1, h2]
        exact hv
      · intro f hf
        simp [h1] at hf
      · intro e _ _
        simp [get_fundamentals, h1, h2]

/-- Closed instance of the C7 theorem: after the first successful fetch of
"AAA", the second call returns the identical record from the cache without
invoking the provider. -/
theorem get_fundamentals_cache_witness :
    get_fundamentals provC7 (get_fundamentals provC7 ⟨[]⟩ "AAA").2.1 "AAA"
      = (some recC7, (get_fundamentals provC7 ⟨[]⟩ "AAA").2.1, false) :=
  (get_fundamentals_cache provC7 ⟨[]⟩ "AAA").1 recC7 (by with_unfolding_all rfl)

/-- C8: `get_fundamentals` never raises: it is a total function, and on
every provider failure (with the symbol not already cached) it returns the
empty result and leaves the state unchanged, with the failure converted at
the point of detection. -/
theorem get_fundamentals_failure {ε : Type} (provider : String → Except ε Fundamentals)
    (st : AnalyzerState) (sym : String) (e : ε)
    (h1 : provider sym = Except.error e)
    (h2 : st.data_cache.lookup sym = none) :
    get_fundamentals provider st sym = (none, st, true) := by
  simp only [get_fundamentals, h1, h2]

/-- Closed instance of the C8 theorem: a provider whose every fetch raises
yields the empty result and an unchanged empty cache. -/
theorem get_fundamentals_failure_witness :
    get_fundamentals provC8 ⟨[]⟩ "ZZZ" = (none, ⟨[]⟩, true) :=
  get_fundamentals_failure provC8 ⟨[]⟩ "ZZZ" "HTTP 404: symbol not found" rfl rfl

theorem mem_screenCriteriaLoop {ε : Type} (provider : String → Except ε Fundamentals)
    (criteria : Criteria) :
    ∀ (syms : List String) (st : AnalyzerState) (c : Candidate),
      c ∈ (screenCriteriaLoop provider criteria syms st).1 →
      ∃ sym f, meets_criteria f criteria = true ∧ c = mkCandidate sym f criteria := by
  intro syms
  induction syms with
  | nil =>
    intro st c h
    simp [screenCriteriaLoop] at h
  | cons sym rest ih =>
    intro st c h
    simp only [screenCriteriaLoop] at h
    cases hf : (get_fundamentals provider st sym).1 with
    | none =>
      simp only [hf] at h
      exact ih _ c h
    | some f =>
      simp only [hf] at h
      by_cases hm : meets_criteria f criteria
      · simp only [if_pos hm] at h
        rcases List.mem_cons.mp h with hc | hc
        · exact ⟨sym, f, hm, hc⟩
        · exact ih _ c hc
      · simp only [if_neg hm] at h
        exact ih _ c h

theorem filter_orderedInsert_eq (a : Candidate) (s : ℚ) (h : a.score = s) :
    ∀ l : List Candidate,
      (List.orderedInsert scoreGE a l).filter (fun c => decide (c.score = s))
        = a :: l.filter (fun c => decide (c.score = s)) := by
  intro l
  induction l with
  | nil => simp [List.orderedInsert, List.filter, h]
  | cons b t ih =>
    by_cases hab : scoreGE a b
    · rw [List.orderedInsert, if_pos hab]
      simp [h]
    · rw [List.orderedInsert, if_neg hab]
      have hb : b.score ≠ s := fun he => hab (le_of_eq (he.trans h.symm))
      simp [List.filter_cons, hb, ih]

theorem filter_orderedInsert_ne (a : Candidate) (s : ℚ) (h : a.score ≠ s) :
    ∀ l : List Candidate,
      (List.orderedInsert scoreGE a l).filter (fun c => decide (c.score = s))
        = l.filter (fun c => decide (c.score = s)) := by
  intro l
  induction l with
  | nil => simp [List.orderedInsert, List.filter, h]
  | cons b t ih =>
    by_cases hab : scoreGE a b
    · rw [List.orderedInsert, if_pos hab]
      simp [List.filter_cons, h]
    · rw [List.orderedInsert, if_neg hab]
      simp [List.filter_cons, ih]

theorem filter_insertionSort_eq (s : ℚ) :
    ∀ l : List Candidate,
      (List.insertionSort scoreGE l).filter (fun c => decide (c.score = s))
        = l.filter (fun c => decide (c.score = s)) := by
  intro l
  induction l with
  | nil => rfl
  | cons a t ih =>
    rw [List.insertionSort]
    by_cases h : a.score = s
    · rw [filter_orderedInsert_eq a s h, ih]
      simp [List.filter_cons, h]
    · rw [filter_orderedInsert_ne a s h, ih]
      simp [List.filter_cons, h]

/-- C2: the list returned by `screen_by_criteria` is sorted in descending
score order (every adjacent — indeed every later — pair satisfies
`score[i] >= score[j]`), and the sort is stable: for every score value,
the candidates carrying it appear exactly as in the unsorted
encounter-order candidate list. -/
theorem screen_by_criteria_sorted {ε : Type} (provider : String → Except ε Fundamentals)
    (instMax : ℚ) (st : AnalyzerState) (sector : String) (criteria : Criteria) :
    ((screen_by_criteria provider instMax st sector criteria).1).Pairwise
        (fun a b => b.score ≤ a.score)
    ∧ ∀ s : ℚ,
        ((screen_by_criteria provider instMax st sector criteria).1).filter
            (fun c => decide (c.score = s))
          = ((screen_candidates provider instMax st sector criteria).1).filter
            (fun c => decide (c.score = s)) := by
  constructor
  · exact List.Pairwise.imp (fun h => h)
      (List.sorted_insertionSort scoreGE
        (screen_candidates provider instMax st sector criteria).1)
  · intro s
    exact filter_insertionSort_eq s _

/-- C1: every candidate returned by `screen_by_criteria` was built from a
fundamentals record that satisfies all five inclusive threshold checks of
the criteria set. -/
theorem screen_by_criteria_meets_all {ε : Type} (provider : String → Except ε Fundamentals)
    (instMax : ℚ) (st : AnalyzerState) (sector : String) (criteria : Criteria)
    (cand : Candidate)
    (hmem : cand ∈ (screen_by_criteria provider instMax st sector criteria).1) :
    ∃ f : Fundamentals,
      cand = mkCandidate cand.symbol f criteria
      ∧ leInf f.market_cap criteria.max_market_cap = true
      ∧ criteria.min_revenue.getD 0 ≤ f.revenue.getD 0
      ∧ leInf f.pe_ratio criteria.max_pe_ratio = true
      ∧ criteria.min_roe.getD 0 ≤ f.roe.getD 0
      ∧ leInf f.debt_to_equity criteria.max_debt_equity = true := by
  have h1 : cand ∈ (screen_candidates provider instMax st sector criteria).1 :=
    (List.perm_insertionSort scoreGE
      (screen_candidates provider instMax st sector criteria).1).mem_iff.mp hmem
  obtain ⟨sym, f, hm, hc⟩ := mem_screenCriteriaLoop provider criteria _ _ cand h1
  subst hc
  simp only [meets_criteria, Bool.and_eq_true, decide_eq_true_eq] at hm
  exact ⟨f, rfl, hm.1.1.1.1, hm.1.1.1.2, hm.1.1.2, hm.1.2, hm.2⟩

/-- Closed instance of the C1 theorem, applied to the single candidate of
a concrete screening run. -/
theorem screen_by_criteria_meets_all_witness :
    ∃ f : Fundamentals,
      mkCandidate "JNJ" recC1 critC1
          = mkCandidate (mkCandidate "JNJ" recC1 critC1).symbol f critC1
      ∧ leInf f.market_cap critC1.max_market_cap = true
      ∧ critC1.min_revenue.getD 0 ≤ f.revenue.getD 0
      ∧ leInf f.pe_ratio critC1.max_pe_ratio = true
      ∧ critC1.min_roe.getD 0 ≤ f.roe.getD 0
      ∧ leInf f.debt_to_equity critC1.max_debt_equity = true :=
  screen_by_criteria_meets_all provC1 2000000000 ⟨[]⟩ "Healthcare" critC1
    (mkCandidate "JNJ" recC1 critC1)
    (by
      have h : (screen_by_criteria provC1 2000000000 ⟨[]⟩ "Healthcare" critC1).1
          = [mkCandidate "JNJ" recC1 critC1] := by with_unfolding_all rfl
      rw [h]
      exact List.mem_singleton.mpr rfl)

/-- C5 counterexample: it is NOT the case that an absent `max_market_cap`
key means no market-cap upper bound anywhere in the pipeline.  Concretely,
with the default instance limit of 2e9, the empty criteria set and a
provider serving one Healthcare record with market cap 3e9, the pipeline
returns no candidates, while the claim's cap-free reading of the pipeline
returns that record's candidate. -/
theorem screen_by_criteria_missing_cap_bounded :
    ¬ (∀ (instMax : ℚ) (provider : String → Except Unit Fundamentals)
        (st : AnalyzerState) (sector : String) (criteria : Criteria),
        criteria.max_market_cap = none →
        (screen_by_criteria provider instMax st sector criteria).1
          = (screen_by_criteria_noCap provider st sector criteria).1) := by
  intro hclaim
  have h := hclaim 2000000000 provC5 ⟨[]⟩ "Healthcare" Criteria.empty rfl
  have hL : (screen_by_criteria provC5 2000000000 ⟨[]⟩ "Healthcare" Criteria.empty).1
      = [] := by with_unfolding_all rfl
  have hR : (screen_by_criteria_noCap provC5 ⟨[]⟩ "Healthcare" Criteria.empty).1
      = [mkCandidate "JNJ" recC5 Criteria.empty] := by with_unfolding_all rfl
  rw [hL, hR] at h
  cases h

/-- C5 amended: when the `max_market_cap` key is absent, the
`meets_criteria` market-cap check is indeed unconstrained (vacuously true
for every record), but `screen_sector`'s effective limit falls back to the
screener's instance default (`max_market_cap or self.max_market_cap`), so
the instance-default market-cap bound is still applied at the
symbol-universe step. -/
theorem screen_by_criteria_missing_cap_amended (instMax : ℚ) (f : Fundamentals)
    (c : Criteria) (h : c.max_market_cap = none) :
    effective_limit c.max_market_cap instMax = instMax
    ∧ leInf f.market_cap c.max_market_cap = true := by
  rw [h]
  exact ⟨rfl, leInf_none_right f.market_cap⟩

/-- Closed instance of the amended C5 theorem. -/
theorem screen_by_criteria_missing_cap_amended_witness :
    effective_limit Criteria.empty.max_market_cap 2000000000 = 2000000000
    ∧ leInf Fundamentals.empty.market_cap Criteria.empty.max_market_cap = true :=
  screen_by_criteria_missing_cap_amended 2000000000 Fundamentals.empty
    Criteria.empty rfl
